import Mathlib

/-!
Verification development for the paged KV-cache pool and batched multi-tenant
low-rank adapter substrate (repository J1shen/sd_punica).

The visible source file src/punica/utils/__init__.py defines the composition
layer (LlamaLoraWeight, BatchedLlamaLoraWeight).  The lower layer it imports
(punica.utils.lora, punica.utils.kvcache, punica.utils.cat_tensor) is not part
of the visible sources; those data structures are modelled from the
specification, and each such definition carries a doc comment saying so.
-/

/-- Numeric precision of a tensor (torch.dtype), as an abstract tag. -/
inductive DType where
  | float16
  | float32
  | bfloat16
deriving DecidableEq

/-- Device residency of a tensor (torch.device), as an abstract index. -/
structure Device where
  index : Nat
deriving DecidableEq

/-- Modelled from the spec: the Adapter Weight class of punica.utils.lora,
whose source file is not among the visible sources.  Per the data model it
carries a rank, input dimension, output dimension, the per-layer down and up
projection matrices (represented here by their shared shape parameters), a
device and a numeric precision.  The constructor arguments follow the call
sites in src/punica/utils/__init__.py:
LoraWeight(num_layers, in_features, out_features, lora_rank, dtype, device). -/
structure LoraWeight where
  num_layers : Nat
  in_features : Nat
  out_features : Nat
  lora_rank : Nat
  dtype : DType
  device : Device
deriving DecidableEq

/-- The fields of the shared model configuration that
LlamaLoraWeight.__init__ reads (src/punica/utils/__init__.py lines 23-78). -/
structure LlamaConfig where
  num_hidden_layers : Nat
  hidden_size : Nat
  intermediate_size : Nat
deriving DecidableEq

/-- Model-specific adapter bundle: exactly seven adapter weights keyed by
projection role (src/punica/utils/__init__.py lines 15-78). -/
structure LlamaLoraWeight where
  q : LoraWeight
  k : LoraWeight
  v : LoraWeight
  o : LoraWeight
  gate : LoraWeight
  up : LoraWeight
  down : LoraWeight
deriving DecidableEq

/-- Embeds LlamaLoraWeight.__init__ (src/punica/utils/__init__.py lines
16-78): every one of the seven weights is built directly from the shared
configuration; the constructor takes no supplied weights and performs no
validation. -/
def LlamaLoraWeight.build (config : LlamaConfig) (lora_rank : Nat)
    (dtype : DType) (device : Device) : LlamaLoraWeight :=
  { q := ⟨config.num_hidden_layers, config.hidden_size, config.hidden_size,
          lora_rank, dtype, device⟩
  , k := ⟨config.num_hidden_layers, config.hidden_size, config.hidden_size,
          lora_rank, dtype, device⟩
  , v := ⟨config.num_hidden_layers, config.hidden_size, config.hidden_size,
          lora_rank, dtype, device⟩
  , o := ⟨config.num_hidden_layers, config.hidden_size, config.hidden_size,
          lora_rank, dtype, device⟩
  , gate := ⟨config.num_hidden_layers, config.hidden_size,
             config.intermediate_size, lora_rank, dtype, device⟩
  , up := ⟨config.num_hidden_layers, config.hidden_size,
           config.intermediate_size, lora_rank, dtype, device⟩
  , down := ⟨config.num_hidden_layers, config.intermediate_size,
             config.hidden_size, lora_rank, dtype, device⟩ }

/-- Modelled from the spec: the Batched Adapter View of punica.utils.lora
(BatchedLoraWeight), whose source file is not among the visible sources.  Per
the spec it aggregates an ordered list of participating Adapter Weights, one
per tenant of the batch. -/
structure BatchedLoraWeight where
  weights : List LoraWeight
deriving DecidableEq

/-- Errors a BatchedLlamaLoraWeight construction can raise: the failed
assert len(weights) == len(lens) (line 82), the IndexError from
weights[0] on an empty list (line 83), and the RuntimeError torch raises
when an entry of lens does not fit in int32 while building the segment
tensor (lines 91-95). -/
inductive BatchErr where
  | lenMismatch
  | emptyWeights
  | int32Overflow
deriving DecidableEq

/-- Smallest representable int32 offset shift: wraps an integer into the
signed 32-bit range, the arithmetic torch.cumsum uses at dtype=torch.int32. -/
def wrap32 (x : Int) : Int :=
  (x + 2147483648) % 4294967296 - 2147483648

/-- Whether a Python integer is representable as a torch int32 scalar;
torch.tensor(..., dtype=torch.int32) raises on values outside this range. -/
def fits32 (x : Int) : Bool :=
  decide (-2147483648 ≤ x) && decide (x < 2147483648)

/-- Running cumulative sum in signed 32-bit arithmetic, as computed by
torch.cumsum(..., dtype=torch.int32): each partial sum is wrapped. -/
def cumsumI32 : Int → List Int → List Int
  | _, [] => []
  | acc, x :: xs =>
    let a := wrap32 (acc + x)
    a :: cumsumI32 a xs

/-- Running cumulative sum in exact integer arithmetic, for comparison with
the wrapped computation. -/
def cumsumExact : Int → List Int → List Int
  | _, [] => []
  | acc, x :: xs => (acc + x) :: cumsumExact (acc + x) xs

/-- Whether every partial sum, starting from the accumulator, stays inside
the int32 range (so that the wrapped cumulative sum agrees with the exact
one). -/
def sumsOk : Int → List Int → Bool
  | _, [] => true
  | acc, x :: xs => fits32 (acc + x) && sumsOk (acc + x) xs

/-- Precondition under which the segment computation is exact: every length
is an int32 scalar (tensor creation succeeds) and every running total stays
in int32 range (cumsum does not wrap). -/
def segmentSafe (lens : List Int) : Bool :=
  lens.all fits32 && sumsOk 0 ((0 : Int) :: lens)

/-- Embeds the segment computation of BatchedLlamaLoraWeight.__init__
(src/punica/utils/__init__.py lines 91-95):
torch.cumsum(torch.tensor([0] + lens, dtype=torch.int32), dim=0,
dtype=torch.int32).  Tensor creation fails if some entry of lens is not an
int32 scalar; the cumulative sum itself is computed in wrapping 32-bit
arithmetic. -/
def segmentOf (lens : List Int) : Except BatchErr (List Int) :=
  if lens.all fits32 then .ok (cumsumI32 0 ((0 : Int) :: lens))
  else .error .int32Overflow

/-- Batched model-specific adapter bundle: seven batched views, the segment
offsets and the single rank attribute
(src/punica/utils/__init__.py lines 80-96). -/
structure BatchedLlamaLoraWeight where
  q : BatchedLoraWeight
  k : BatchedLoraWeight
  v : BatchedLoraWeight
  o : BatchedLoraWeight
  gate : BatchedLoraWeight
  up : BatchedLoraWeight
  down : BatchedLoraWeight
  segment : List Int
  rank : Nat
deriving DecidableEq

/-- Embeds BatchedLlamaLoraWeight.__init__ (src/punica/utils/__init__.py
lines 81-96).  In source order: the assert len(weights) == len(lens); the
read weights[0].q.wa.device, which raises IndexError on an empty weight
list; the seven BatchedLoraWeight views, each built by projecting the same
ordered weight list; the segment tensor; and rank = weights[0].q.lora_rank,
a single scalar taken from the first tenant. -/
def BatchedLlamaLoraWeight.build (weights : List LlamaLoraWeight)
    (lens : List Int) : Except BatchErr BatchedLlamaLoraWeight :=
  if weights.length = lens.length then
    match weights with
    | [] => .error .emptyWeights
    | w0 :: _ =>
      match segmentOf lens with
      | .error e => .error e
      | .ok seg =>
        .ok { q := ⟨weights.map (fun w => w.q)⟩
            , k := ⟨weights.map (fun w => w.k)⟩
            , v := ⟨weights.map (fun w => w.v)⟩
            , o := ⟨weights.map (fun w => w.o)⟩
            , gate := ⟨weights.map (fun w => w.gate)⟩
            , up := ⟨weights.map (fun w => w.up)⟩
            , down := ⟨weights.map (fun w => w.down)⟩
            , segment := seg
            , rank := w0.q.lora_rank }
  else .error .lenMismatch

/-- Error of the spec-worded checked bundle construction. -/
inductive BundleError where
  | configMismatch
deriving DecidableEq

/-- Whether all seven weights of a bundle agree with the shared
configuration dimensions: q, k, v, o map hidden to hidden, gate and up map
hidden to intermediate, down maps intermediate to hidden, and every weight
spans num_hidden_layers layers. -/
def bundleMatchesConfig (b : LlamaLoraWeight) (cfg : LlamaConfig) : Bool :=
  (b.q.num_layers == cfg.num_hidden_layers) &&
  (b.q.in_features == cfg.hidden_size) && (b.q.out_features == cfg.hidden_size) &&
  (b.k.num_layers == cfg.num_hidden_layers) &&
  (b.k.in_features == cfg.hidden_size) && (b.k.out_features == cfg.hidden_size) &&
  (b.v.num_layers == cfg.num_hidden_layers) &&
  (b.v.in_features == cfg.hidden_size) && (b.v.out_features == cfg.hidden_size) &&
  (b.o.num_layers == cfg.num_hidden_layers) &&
  (b.o.in_features == cfg.hidden_size) && (b.o.out_features == cfg.hidden_size) &&
  (b.gate.num_layers == cfg.num_hidden_layers) &&
  (b.gate.in_features == cfg.hidden_size) &&
  (b.gate.out_features == cfg.intermediate_size) &&
  (b.up.num_layers == cfg.num_hidden_layers) &&
  (b.up.in_features == cfg.hidden_size) &&
  (b.up.out_features == cfg.intermediate_size) &&
  (b.down.num_layers == cfg.num_hidden_layers) &&
  (b.down.in_features == cfg.intermediate_size) &&
  (b.down.out_features == cfg.hidden_size)

/-- Modelled from the spec: the bundle construction the specification
describes, taking seven supplied weights and failing with ConfigMismatch if
any disagrees with the shared configuration.  No such constructor exists in
the source: LlamaLoraWeight.__init__ receives no weights at all. -/
def llamaBundleFromSupplied (cfg : LlamaConfig) (supplied : LlamaLoraWeight) :
    Except BundleError LlamaLoraWeight :=
  if bundleMatchesConfig supplied cfg then .ok supplied
  else .error .configMismatch

/-- A small concrete model configuration used in concrete instances. -/
def cfgEx : LlamaConfig := ⟨2, 4, 8⟩

/-- A concrete device used in concrete instances. -/
def devEx : Device := ⟨0⟩

/-- A concrete per-tenant bundle at a chosen rank. -/
def exW (r : Nat) : LlamaLoraWeight :=
  LlamaLoraWeight.build cfgEx r .float16 devEx

/-- A bundle built from a configuration disagreeing with cfgEx in every
dimension, used as a supplied bundle the spec-worded check rejects. -/
def badBundleEx : LlamaLoraWeight :=
  LlamaLoraWeight.build ⟨3, 5, 7⟩ 8 .float16 devEx

/-- The concrete batched bundle produced from one tenant of rank 8 with a
row count of 4. -/
def c4bEx : BatchedLlamaLoraWeight :=
  ⟨⟨[(exW 8).q]⟩, ⟨[(exW 8).k]⟩, ⟨[(exW 8).v]⟩, ⟨[(exW 8).o]⟩,
   ⟨[(exW 8).gate]⟩, ⟨[(exW 8).up]⟩, ⟨[(exW 8).down]⟩,
   [0, 4], (exW 8).q.lora_rank⟩

example : segmentOf [3, 5, 2] = .ok [0, 3, 8, 10] := rfl
example : (BatchedLlamaLoraWeight.build [exW 8, exW 16] [4, 4]).isOk = true := rfl
example : segmentOf [2147483647, 1] = .ok [0, 2147483647, -2147483648] := rfl

/-- Typed failures of the KV-cache layer, following the error taxonomy of
the spec.  The cases cacheExists and noSuchCache are not part of that
taxonomy: they model Python-level misuse of the modelled system (reusing a
cache identifier, or acting on an identifier that names no cache) so the
embedding stays total. -/
inductive KvErr where
  | poolExhausted
  | doubleFree
  | invalidPage
  | alreadyReleased
  | cacheExists
  | noSuchCache
deriving DecidableEq

/-- Modelled from the spec: the Page Pool of punica.utils.kvcache (KvPool),
whose source file is not among the visible sources.  It owns capacity pages
of page_len token positions each, a free set (kept as a list used as a
stack) and, for diagnostics, the mapping from each leased page index to the
identity of the owning KV cache, kept as a list of pairs. -/
structure KvPool where
  capacity : Nat
  page_len : Nat
  freePages : List Nat
  leased : List (Nat × Nat)
deriving DecidableEq

/-- Modelled from the spec: a freshly constructed pool owns all of its pages
and has leased none. -/
def KvPool.create (capacity page_len : Nat) : KvPool :=
  ⟨capacity, page_len, List.range capacity, []⟩

/-- Modelled from the spec: allocate_page leases one page to the given
cache, failing with PoolExhausted when the free set is empty; allocation is
O(1) off the head of the free list and never zeroes the page. -/
def KvPool.allocPage (pool : KvPool) (owner : Nat) :
    Except KvErr (Nat × KvPool) :=
  match pool.freePages with
  | [] => .error .poolExhausted
  | p :: rest =>
    .ok (p, { pool with freePages := rest, leased := (p, owner) :: pool.leased })

/-- Modelled from the spec: free_page returns a page to the free set,
failing with InvalidPage when the index is out of range and with DoubleFree
when the index is already free. -/
def KvPool.freePage (pool : KvPool) (p : Nat) : Except KvErr KvPool :=
  if pool.capacity ≤ p then .error .invalidPage
  else if p ∈ pool.freePages then .error .doubleFree
  else
    .ok { pool with
          freePages := p :: pool.freePages
        , leased := pool.leased.filter (fun e => e.1 != p) }

/-- One raw pool call: allocate_page on behalf of a cache identity, or
free_page of a page index. -/
inductive PoolOp where
  | alloc (owner : Nat)
  | free (page : Nat)

/-- Applies one pool call, keeping the pool unchanged when the call fails
(both failures are synchronous typed errors mutating nothing). -/
def stepPool (pool : KvPool) (op : PoolOp) : KvPool :=
  match op with
  | .alloc owner =>
    match pool.allocPage owner with
    | .ok (_, pool') => pool'
    | .error _ => pool
  | .free p =>
    match pool.freePage p with
    | .ok pool' => pool'
    | .error _ => pool

/-- Applies a finite sequence of pool calls in order. -/
def runPool (pool : KvPool) : List PoolOp → KvPool
  | [] => pool
  | op :: ops => runPool (stepPool pool op) ops

/-- A call trace contains no double-free: no free_page call targets a page
that is free at the moment of the call. -/
def noDoubleFree (pool : KvPool) : List PoolOp → Bool
  | [] => true
  | op :: ops =>
    (match op with
     | .free p => !(decide (p ∈ pool.freePages))
     | .alloc _ => true) && noDoubleFree (stepPool pool op) ops

/-- The pool conservation invariant: the size of the free set plus the
number of leased pages equals the capacity, and every page index below the
capacity occurs exactly once across the free set and the lease map (hence
belongs to exactly one cache when leased), while indices at or above the
capacity occur nowhere. -/
def PoolInv (pool : KvPool) : Prop :=
  pool.freePages.length + pool.leased.length = pool.capacity ∧
  ∀ p : Nat,
    pool.freePages.count p + pool.leased.countP (fun e => e.1 == p) =
      if p < pool.capacity then 1 else 0

/-- Modelled from the spec: one live request KV cache of
punica.utils.kvcache (KvCache), whose source file is not among the visible
sources: the ordered list of leased page indices, the filled-token count,
and whether release was already called. -/
structure KvCache where
  pages : List Nat
  seqlen : Nat
  released : Bool
deriving DecidableEq

/-- Modelled from the spec: number of additional pages an append of n tokens
must lease, the smallest k with seqlen + n ≤ (len(pages) + k) * page_len. -/
def KvCache.pagesNeeded (c : KvCache) (page_len n : Nat) : Nat :=
  (c.seqlen + n + page_len - 1) / page_len - c.pages.length

/-- Modelled from the spec: leases k pages one at a time through
allocate_page; any PoolExhausted failure discards the partial lease, so the
caller observes the original pool. -/
def KvPool.leaseMany (pool : KvPool) (owner : Nat) :
    Nat → Except KvErr (List Nat × KvPool)
  | 0 => .ok ([], pool)
  | Nat.succ k =>
    match pool.allocPage owner with
    | .error e => .error e
    | .ok (p, pool') =>
      match pool'.leaseMany owner k with
      | .error e => .error e
      | .ok (ps, pool'') => .ok (p :: ps, pool'')

/-- Modelled from the spec: returns each of the listed pages to the pool
through successive free_page calls, propagating any typed failure. -/
def KvPool.freeAll (pool : KvPool) : List Nat → Except KvErr KvPool
  | [] => .ok pool
  | p :: ps =>
    match pool.freePage p with
    | .error e => .error e
    | .ok pool' => pool'.freeAll ps

/-- The whole modelled KV system: the single shared pool plus the live
caches, keyed by cache identity. -/
structure KvSys where
  pool : KvPool
  caches : List (Nat × KvCache)
deriving DecidableEq

/-- Replaces the cache stored under the given identity. -/
def setCache (caches : List (Nat × KvCache)) (id : Nat) (c : KvCache) :
    List (Nat × KvCache) :=
  caches.map (fun e => if e.1 == id then (id, c) else e)

/-- Modelled from the spec: a new request creates an empty cache (zero
pages, zero filled tokens). -/
def KvSys.newCache (s : KvSys) (id : Nat) : Except KvErr KvSys :=
  match s.caches.lookup id with
  | some _ => .error .cacheExists
  | none => .ok { s with caches := (id, ⟨[], 0, false⟩) :: s.caches }

/-- Modelled from the spec: KvCache.append(n) records n new tokens, leasing
the needed pages one at a time, failing with PoolExhausted (and changing
nothing) if the pool cannot supply them all. -/
def KvSys.appendTokens (s : KvSys) (id : Nat) (n : Nat) : Except KvErr KvSys :=
  match s.caches.lookup id with
  | none => .error .noSuchCache
  | some c =>
    if c.released then .error .alreadyReleased
    else
      match s.pool.leaseMany id (c.pagesNeeded s.pool.page_len n) with
      | .error e => .error e
      | .ok (ps, pool') =>
        .ok { pool := pool'
            , caches := setCache s.caches id
                ⟨c.pages ++ ps, c.seqlen + n, false⟩ }

/-- Modelled from the spec: release() returns every leased page to the pool
and fails with AlreadyReleased when called a second time. -/
def KvSys.release (s : KvSys) (id : Nat) : Except KvErr KvSys :=
  match s.caches.lookup id with
  | none => .error .noSuchCache
  | some c =>
    if c.released then .error .alreadyReleased
    else
      match s.pool.freeAll c.pages with
      | .error e => .error e
      | .ok pool' =>
        .ok { pool := pool'
            , caches := setCache s.caches id ⟨[], c.seqlen, true⟩ }

/-- One call of the modelled serving loop against the KV system. -/
inductive SysOp where
  | newCache (id : Nat)
  | append (id : Nat) (n : Nat)
  | release (id : Nat)

/-- Applies one system call, returning the typed failure if any. -/
def stepSysE (s : KvSys) : SysOp → Except KvErr KvSys
  | .newCache id => s.newCache id
  | .append id n => s.appendTokens id n
  | .release id => s.release id

/-- Applies one system call, keeping the state unchanged when the call
fails. -/
def stepSys (s : KvSys) (op : SysOp) : KvSys :=
  match stepSysE s op with
  | .ok s' => s'
  | .error _ => s

/-- The end-to-end scenario state: capacity 4, page length 16, cache 1 holds
pages 0 and 1 with 20 filled tokens, cache 2 is empty, pages 2 and 3 free. -/
def sEx7 : KvSys :=
  ⟨⟨4, 16, [2, 3], [(0, 1), (1, 1)]⟩,
   [(1, ⟨[0, 1], 20, false⟩), (2, ⟨[], 0, false⟩)]⟩

/-- A state with one live cache (identity 7) holding pages 0 and 1. -/
def sEx8 : KvSys :=
  ⟨⟨4, 16, [2, 3], [(0, 7), (1, 7)]⟩, [(7, ⟨[0, 1], 20, false⟩)]⟩

theorem wrap32_eq_of_fits (x : Int) (h : fits32 x = true) : wrap32 x = x := by
  unfold fits32 at h
  simp only [Bool.and_eq_true, decide_eq_true_eq] at h
  unfold wrap32
  have hmod : (x + 2147483648) % 4294967296 = x + 2147483648 :=
    Int.emod_eq_of_lt (by omega) (by omega)
  omega

theorem cumsumI32_eq_exact (lens : List Int) :
    ∀ acc : Int, sumsOk acc lens = true →
      cumsumI32 acc lens = cumsumExact acc lens := by
  induction lens with
  | nil => intro acc _; rfl
  | cons x xs ih =>
    intro acc h
    unfold sumsOk at h
    simp only [Bool.and_eq_true] at h
    unfold cumsumI32 cumsumExact
    simp only [wrap32_eq_of_fits _ h.1, ih _ h.2]

theorem cumsumExact_length (lens : List Int) :
    ∀ acc : Int, (cumsumExact acc lens).length = lens.length := by
  induction lens with
  | nil => intro _; rfl
  | cons x xs ih => intro acc; simp [cumsumExact, ih]

theorem cumsumExact_getD (lens : List Int) :
    ∀ (acc : Int) (i : Nat), i < lens.length →
      (acc :: cumsumExact acc lens).getD (i + 1) 0 =
        (acc :: cumsumExact acc lens).getD i 0 + lens.getD i 0 := by
  induction lens with
  | nil => intro acc i h; exact absurd h (by simp)
  | cons x xs ih =>
    intro acc i h
    cases i with
    | zero => simp [cumsumExact]
    | succ j =>
      have hj : j < xs.length := by simpa using h
      have := ih (acc + x) j hj
      simpa [cumsumExact] using this

theorem cumsumExact_chain (lens : List Int) :
    ∀ acc : Int, lens.all (fun x => decide (0 ≤ x)) = true →
      List.Chain' (· ≤ ·) (acc :: cumsumExact acc lens) := by
  induction lens with
  | nil => intro acc _; simp [cumsumExact]
  | cons x xs ih =>
    intro acc h
    simp only [List.all_cons, Bool.and_eq_true, decide_eq_true_eq] at h
    have tail := ih (acc + x) (by
      simpa using h.2)
    unfold cumsumExact
    exact List.Chain'.cons (by omega) tail

theorem countP_key_filter_self (l : List (Nat × Nat)) (p : Nat) :
    ((l.filter fun e => e.1 != p).countP fun e => e.1 == p) = 0 := by
  induction l with
  | nil => rfl
  | cons e t ih =>
    by_cases hep : e.1 = p
    · simp [List.filter_cons, hep, ih]
    · simp [List.filter_cons, List.countP_cons, hep, ih]

theorem countP_key_filter_other (l : List (Nat × Nat)) (p q : Nat)
    (h : q ≠ p) :
    ((l.filter fun e => e.1 != p).countP fun e => e.1 == q) =
      l.countP fun e => e.1 == q := by
  induction l with
  | nil => rfl
  | cons e t ih =>
    by_cases hep : e.1 = p
    · have h1 : (e.1 != p) = false := by simp [hep]
      have h2 : (e.1 == q) = false := by
        rw [hep]
        exact beq_eq_false_iff_ne.mpr (Ne.symm h)
      rw [List.filter_cons, h1, List.countP_cons, h2]
      simp [ih]
    · rw [List.filter_cons, if_pos (show ((e.1 != p) = true) by simp [hep])]
      rw [List.countP_cons, List.countP_cons, ih]

theorem length_filter_key (l : List (Nat × Nat)) (p : Nat) :
    (l.filter fun e => e.1 != p).length + (l.countP fun e => e.1 == p) =
      l.length := by
  induction l with
  | nil => rfl
  | cons e t ih =>
    by_cases hep : e.1 = p
    · simp [List.filter_cons, List.countP_cons, hep]
      omega
    · simp [List.filter_cons, List.countP_cons, hep]
      omega

theorem count_range_eq (n : Nat) (p : Nat) :
    (List.range n).count p = if p < n then 1 else 0 := by
  induction n with
  | zero => simp
  | succ m ih =>
    rw [List.range_succ, List.count_append, ih]
    by_cases h : p = m
    · simp [h]
    · have h1 : List.count p [m] = 0 := by
        simp [List.count_cons, h]
      rw [h1]
      by_cases h2 : p < m
      · rw [if_pos h2, if_pos (by omega)]
      · rw [if_neg h2, if_neg (by omega)]

theorem poolInv_create (capacity page_len : Nat) :
    PoolInv (KvPool.create capacity page_len) := by
  constructor
  · simp [KvPool.create]
  · intro p
    simp [KvPool.create, count_range_eq]

theorem poolInv_step (pool : KvPool) (op : PoolOp) (h : PoolInv pool) :
    PoolInv (stepPool pool op) := by
  obtain ⟨hlen, hcount⟩ := h
  cases op with
  | alloc owner =>
    unfold stepPool KvPool.allocPage
    cases hf : pool.freePages with
    | nil => exact ⟨hlen, hcount⟩
    | cons p rest =>
      refine ⟨?_, ?_⟩
      · show rest.length + ((p, owner) :: pool.leased).length = pool.capacity
        have hl := hlen
        rw [hf] at hl
        simp only [List.length_cons] at hl ⊢
        omega
      · intro q
        show rest.count q +
            (((p, owner) :: pool.leased).countP fun e => e.1 == q) =
            if q < pool.capacity then 1 else 0
        have hq := hcount q
        rw [hf] at hq
        rw [List.count_cons] at hq
        rw [List.countP_cons]
        by_cases hcq : q < pool.capacity
        · rw [if_pos hcq] at hq ⊢
          by_cases hb : (p == q) = true
          · rw [if_pos hb] at hq
            rw [if_pos (show ((p, owner).1 == q) = true from hb)]
            omega
          · rw [if_neg hb] at hq
            rw [if_neg (show ¬ ((p, owner).1 == q) = true from hb)]
            omega
        · rw [if_neg hcq] at hq ⊢
          by_cases hb : (p == q) = true
          · rw [if_pos hb] at hq
            rw [if_pos (show ((p, owner).1 == q) = true from hb)]
            omega
          · rw [if_neg hb] at hq
            rw [if_neg (show ¬ ((p, owner).1 == q) = true from hb)]
            omega
  | free p =>
    unfold stepPool KvPool.freePage
    by_cases hcap : pool.capacity ≤ p
    · simp only [if_pos hcap]
      exact ⟨hlen, hcount⟩
    · by_cases hmem : p ∈ pool.freePages
      · simp only [if_neg hcap, if_pos hmem]
        exact ⟨hlen, hcount⟩
      · simp only [if_neg hcap, if_neg hmem]
        have hfree0 : pool.freePages.count p = 0 :=
          List.count_eq_zero.mpr hmem
        have hone : (pool.leased.countP fun e => e.1 == p) = 1 := by
          have hp := hcount p
          rw [if_pos (show p < pool.capacity by omega)] at hp
          omega
        refine ⟨?_, ?_⟩
        · show (p :: pool.freePages).length +
              (pool.leased.filter fun e => e.1 != p).length = pool.capacity
          have hflt := length_filter_key pool.leased p
          simp only [List.length_cons]
          omega
        · intro q
          show (p :: pool.freePages).count q +
              ((pool.leased.filter fun e => e.1 != p).countP fun e => e.1 == q) =
              if q < pool.capacity then 1 else 0
          have hq := hcount q
          rw [List.count_cons]
          by_cases hpq : q = p
          · subst hpq
            rw [countP_key_filter_self]
            rw [if_pos (show (q == q) = true from beq_self_eq_true q)]
            rw [if_pos (show q < pool.capacity by omega)]
            rw [if_pos (show q < pool.capacity by omega)] at hq
            omega
          · have hcnt : (p == q) = false := beq_eq_false_iff_ne.mpr (Ne.symm hpq)
            rw [countP_key_filter_other _ _ _ hpq]
            rw [if_neg (show ¬ (p == q) = true by rw [hcnt]; exact Bool.false_ne_true)]
            omega

theorem poolInv_run (ops : List PoolOp) :
    ∀ pool : KvPool, PoolInv pool → PoolInv (runPool pool ops) := by
  induction ops with
  | nil => intro pool h; exact h
  | cons op rest ih =>
    intro pool h
    exact ih _ (poolInv_step pool op h)

theorem leaseMany_exhaust (k : Nat) :
    ∀ (pool : KvPool) (owner : Nat), pool.freePages.length < k →
      pool.leaseMany owner k = .error .poolExhausted := by
  induction k with
  | zero => intro pool owner h; exact absurd h (by omega)
  | succ m ih =>
    intro pool owner h
    unfold KvPool.leaseMany KvPool.allocPage
    cases hf : pool.freePages with
    | nil => rfl
    | cons p rest =>
      have hrest : rest.length < m := by
        rw [hf] at h
        simpa using Nat.lt_of_succ_lt_succ h
      have := ih { pool with freePages := rest, leased := (p, owner) :: pool.leased }
        owner (by simpa using hrest)
      simp only [this]

theorem freeAll_spec (pages : List Nat) :
    ∀ pool : KvPool, pages.Nodup →
      (∀ p ∈ pages, p < pool.capacity) →
      (∀ p ∈ pages, p ∉ pool.freePages) →
      ∃ l' : List (Nat × Nat),
        pool.freeAll pages =
          .ok ⟨pool.capacity, pool.page_len,
               pages.reverse ++ pool.freePages, l'⟩ := by
  induction pages with
  | nil =>
    intro pool _ _ _
    exact ⟨pool.leased, rfl⟩
  | cons p ps ih =>
    intro pool hnd hlt hnf
    have hp1 : p < pool.capacity := hlt p (by simp)
    have hp2 : p ∉ pool.freePages := hnf p (by simp)
    have hstep : pool.freePage p =
        .ok ⟨pool.capacity, pool.page_len, p :: pool.freePages,
             pool.leased.filter (fun e => e.1 != p)⟩ := by
      unfold KvPool.freePage
      rw [if_neg (by omega), if_neg hp2]
    have hnotin : p ∉ ps := (List.nodup_cons.mp hnd).1
    obtain ⟨l', hrec⟩ := ih
      ⟨pool.capacity, pool.page_len, p :: pool.freePages,
       pool.leased.filter (fun e => e.1 != p)⟩
      (List.nodup_cons.mp hnd).2
      (fun q hq => hlt q (by simp [hq]))
      (fun q hq => by
        simp only [List.mem_cons]
        push_neg
        exact ⟨fun he => hnotin (he ▸ hq), hnf q (by simp [hq])⟩)
    refine ⟨l', ?_⟩
    unfold KvPool.freeAll
    rw [hstep]
    show KvPool.freeAll ⟨pool.capacity, pool.page_len, p :: pool.freePages,
        pool.leased.filter (fun e => e.1 != p)⟩ ps =
      .ok ⟨pool.capacity, pool.page_len, (p :: ps).reverse ++ pool.freePages, l'⟩
    rw [hrec]
    simp [List.reverse_cons, List.append_assoc]

theorem lookup_setCache (l : List (Nat × KvCache)) (id : Nat)
    (c cNew : KvCache) (h : l.lookup id = some c) :
    (setCache l id cNew).lookup id = some cNew := by
  induction l with
  | nil => exact absurd h (by simp [List.lookup])
  | cons e t ih =>
    by_cases hk : id = e.1
    · unfold setCache
      simp only [List.map_cons]
      rw [if_pos (by simp [hk])]
      simp [List.lookup]
    · have hne : (id == e.1) = false := beq_eq_false_iff_ne.mpr hk
      have ht : t.lookup id = some c := by
        unfold List.lookup at h
        rw [hne] at h
        exact h
      have hne2 : (e.1 == id) = false := beq_eq_false_iff_ne.mpr (Ne.symm hk)
      unfold setCache
      simp only [List.map_cons]
      rw [if_neg (by simp [hne2])]
      unfold List.lookup
      rw [hne]
      exact ih ht

theorem cumsumExact_getLast (lens : List Int) :
    ∀ acc : Int,
      (acc :: cumsumExact acc lens).getLast? = some (acc + lens.sum) := by
  induction lens with
  | nil => intro acc; simp [cumsumExact]
  | cons x xs ih =>
    intro acc
    have tail := ih (acc + x)
    unfold cumsumExact
    rw [List.getLast?_cons_cons, tail]
    simp [add_assoc]

/-- Claim C1 counterexample: the batched view built from two tenants of
ranks 8 and 16 succeeds but exposes a single scalar rank equal to 8, the
first tenant's rank; there is no per-tenant rank vector, and the exposed
rank differs from tenant 1's rank 16. -/
theorem c1_rank_vector_counterexample :
    Except.map (fun b => b.rank)
      (BatchedLlamaLoraWeight.build [exW 8, exW 16] [4, 4]) = .ok 8 ∧
    (exW 16).q.lora_rank = 16 ∧ (8 : Nat) ≠ 16 :=
  ⟨rfl, rfl, by decide⟩

/-- Claim C1 (amended): a batched bundle built from a non-empty ordered
weight list of the same length as the (int32-representable) row counts
always succeeds, with no rank-uniformity check, and exposes as its rank a
single scalar equal to the first tenant's rank. -/
theorem c1_amended_first_tenant_rank (w0 : LlamaLoraWeight)
    (rest : List LlamaLoraWeight) (lens : List Int)
    (hlen : (w0 :: rest).length = lens.length)
    (hfit : lens.all fits32 = true) :
    Except.map (fun b => b.rank)
      (BatchedLlamaLoraWeight.build (w0 :: rest) lens) =
      .ok w0.q.lora_rank := by
  unfold BatchedLlamaLoraWeight.build segmentOf
  rw [if_pos hlen, if_pos hfit]
  rfl

/-- Claim C1 witness: the amended statement at two tenants of ranks 8 and
16 with row counts 4 and 4. -/
theorem c1_amended_first_tenant_rank_witness :
    (([exW 8, exW 16] : List LlamaLoraWeight).length =
      ([4, 4] : List Int).length) ∧
    (([4, 4] : List Int).all fits32 = true) ∧
    Except.map (fun b => b.rank)
      (BatchedLlamaLoraWeight.build [exW 8, exW 16] [4, 4]) =
      .ok (exW 8).q.lora_rank :=
  ⟨rfl, by decide,
   c1_amended_first_tenant_rank (exW 8) [exW 16] [4, 4] rfl (by decide)⟩

/-- Claim C2 counterexample: construction from one tenant with declared row
count 5 succeeds although 5 disagrees with a batch total of 3; the
constructor receives no batch total and performs no such comparison, so no
TenantRowMismatch failure occurs. -/
theorem c2_row_sum_counterexample :
    (BatchedLlamaLoraWeight.build [exW 8] [5]).isOk = true ∧
    ([(5 : Int)].sum ≠ (3 : Int)) :=
  ⟨rfl, by decide⟩

/-- Claim C2 (amended): the only count validation in the batched
constructor is the assertion that the number of weights equals the number
of declared row counts; when it fails the constructor returns that typed
failure, touching no pool or cache state (it is a pure value
construction). -/
theorem c2_amended_length_assert (weights : List LlamaLoraWeight)
    (lens : List Int) (h : weights.length ≠ lens.length) :
    BatchedLlamaLoraWeight.build weights lens = .error .lenMismatch := by
  unfold BatchedLlamaLoraWeight.build
  rw [if_neg h]

/-- Claim C2 witness: the amended statement at one weight and zero row
counts. -/
theorem c2_amended_length_assert_witness :
    (([exW 8] : List LlamaLoraWeight).length ≠ ([] : List Int).length) ∧
    BatchedLlamaLoraWeight.build [exW 8] [] = .error .lenMismatch :=
  ⟨by decide, c2_amended_length_assert [exW 8] [] (by decide)⟩

/-- Claim C3 counterexample: for the non-negative lengths
[2147483647, 1] the derived offsets are [0, 2147483647, -2147483648]
because the segment is computed in wrapping int32 arithmetic: the offsets
are not monotone, the final entry differs from the total 2147483648, and
the recurrence fails at the last step. -/
theorem c3_int32_overflow_counterexample :
    segmentOf [2147483647, 1] = .ok [0, 2147483647, -2147483648] ∧
    ([(2147483647 : Int), 1].all (fun x => decide (0 ≤ x)) = true) ∧
    ¬ List.Chain' (· ≤ ·) [(0 : Int), 2147483647, -2147483648] ∧
    [(0 : Int), 2147483647, -2147483648].getLast? ≠
      some ([(2147483647 : Int), 1].sum) ∧
    [(0 : Int), 2147483647, -2147483648].getD 2 0 ≠
      [(0 : Int), 2147483647, -2147483648].getD 1 0 +
        [(2147483647 : Int), 1].getD 1 0 :=
  ⟨rfl, by decide,
   by
     intro hch
     rw [List.chain'_cons, List.chain'_cons] at hch
     have hc := hch.2.1
     omega,
   by decide, by decide⟩

/-- Claim C3 (amended): provided every length is an int32 scalar and every
running total stays within int32 range, the derived offset sequence starts
at 0, satisfies the recurrence offset(i+1) = offset(i) + length(i), is
monotonically non-decreasing when lengths are non-negative, has final
entry equal to the total, and has one more entry than the length list; in
particular lengths [3, 5, 2] yield the offsets [0, 3, 8, 10], whose first
three entries [0, 3, 8] are the per-item offsets and whose final entry 10
is the total. -/
theorem c3_amended_cumulative_offsets :
    (∀ lens : List Int, segmentSafe lens = true →
      ∀ offs : List Int, segmentOf lens = .ok offs →
        offs.getD 0 0 = 0 ∧
        (∀ i : Nat, i < lens.length →
          offs.getD (i + 1) 0 = offs.getD i 0 + lens.getD i 0) ∧
        (lens.all (fun x => decide (0 ≤ x)) = true →
          List.Chain' (· ≤ ·) offs) ∧
        offs.getLast? = some lens.sum ∧
        offs.length = lens.length + 1) ∧
    segmentOf [3, 5, 2] = .ok [0, 3, 8, 10] ∧
    ([(0 : Int), 3, 8, 10].take 3 = [0, 3, 8] ∧
     [(0 : Int), 3, 8, 10].getLast? = some 10) := by
  refine ⟨?_, rfl, by decide⟩
  intro lens hsafe offs hoffs
  unfold segmentSafe at hsafe
  simp only [Bool.and_eq_true] at hsafe
  unfold segmentOf at hoffs
  rw [if_pos hsafe.1] at hoffs
  injection hoffs with h
  have hz : offs = (0 : Int) :: cumsumExact 0 lens := by
    rw [← h, cumsumI32_eq_exact _ 0 hsafe.2]
    simp [cumsumExact]
  subst hz
  refine ⟨rfl, ?_, ?_, ?_, ?_⟩
  · intro i hi
    exact cumsumExact_getD lens 0 i hi
  · intro hpos
    exact cumsumExact_chain lens 0 hpos
  · rw [cumsumExact_getLast lens 0]
    simp
  · simp [cumsumExact_length]

/-- Claim C3 witness: the amended statement at the lengths [3, 5, 2]. -/
theorem c3_amended_cumulative_offsets_witness :
    segmentSafe [3, 5, 2] = true ∧
    segmentOf [3, 5, 2] = .ok [0, 3, 8, 10] ∧
    (([(0 : Int), 3, 8, 10].getD 0 0 = 0) ∧
     (∀ i : Nat, i < ([3, 5, 2] : List Int).length →
       [(0 : Int), 3, 8, 10].getD (i + 1) 0 =
         [(0 : Int), 3, 8, 10].getD i 0 + ([3, 5, 2] : List Int).getD i 0) ∧
     (([3, 5, 2] : List Int).all (fun x => decide (0 ≤ x)) = true →
       List.Chain' (· ≤ ·) [(0 : Int), 3, 8, 10]) ∧
     [(0 : Int), 3, 8, 10].getLast? = some ([3, 5, 2] : List Int).sum ∧
     ([(0 : Int), 3, 8, 10] : List Int).length =
       ([3, 5, 2] : List Int).length + 1) :=
  ⟨by decide, rfl,
   c3_amended_cumulative_offsets.1 [3, 5, 2] (by decide) [0, 3, 8, 10] rfl⟩

/-- Claim C9 counterexample: a non-empty weight list with a row-count list
of the same length is not sufficient for success: the row count 2147483648
does not fit in int32, so the segment tensor creation fails and
construction returns an error. -/
theorem c9_int32_lens_counterexample :
    ([exW 8] : List LlamaLoraWeight) ≠ [] ∧
    ([exW 8] : List LlamaLoraWeight).length =
      ([(2147483648 : Int)] : List Int).length ∧
    BatchedLlamaLoraWeight.build [exW 8] [2147483648] =
      .error .int32Overflow :=
  ⟨by decide, rfl, rfl⟩

/-- Claim C9 (amended): batched construction from an empty weight list, or
from lists of different lengths, fails; a non-empty weight list of the same
length as the row-count list, with every row count representable in int32,
is a precondition under which construction always succeeds. -/
theorem c9_amended_construction_conditions :
    (∀ lens : List Int,
      (BatchedLlamaLoraWeight.build [] lens).isOk = false) ∧
    (∀ (weights : List LlamaLoraWeight) (lens : List Int),
      weights.length ≠ lens.length →
      (BatchedLlamaLoraWeight.build weights lens).isOk = false) ∧
    (∀ (w0 : LlamaLoraWeight) (rest : List LlamaLoraWeight) (lens : List Int),
      (w0 :: rest).length = lens.length → lens.all fits32 = true →
      (BatchedLlamaLoraWeight.build (w0 :: rest) lens).isOk = true) := by
  refine ⟨?_, ?_, ?_⟩
  · intro lens
    unfold BatchedLlamaLoraWeight.build
    by_cases h : ([] : List LlamaLoraWeight).length = lens.length
    · rw [if_pos h]
      rfl
    · rw [if_neg h]
      rfl
  · intro weights lens h
    unfold BatchedLlamaLoraWeight.build
    rw [if_neg h]
    rfl
  · intro w0 rest lens hlen hfit
    unfold BatchedLlamaLoraWeight.build segmentOf
    rw [if_pos hlen, if_pos hfit]
    rfl

/-- Claim C9 witness: the three conditions at concrete inputs. -/
theorem c9_amended_construction_conditions_witness :
    (BatchedLlamaLoraWeight.build [] [4]).isOk = false ∧
    (([exW 8] : List LlamaLoraWeight).length ≠ ([] : List Int).length ∧
     (BatchedLlamaLoraWeight.build [exW 8] []).isOk = false) ∧
    (([exW 8] : List LlamaLoraWeight).length = ([4] : List Int).length ∧
     ([(4 : Int)].all fits32 = true) ∧
     (BatchedLlamaLoraWeight.build [exW 8] [4]).isOk = true) :=
  ⟨c9_amended_construction_conditions.1 [4],
   ⟨by decide, c9_amended_construction_conditions.2.1 [exW 8] [] (by decide)⟩,
   ⟨rfl, by decide,
    c9_amended_construction_conditions.2.2 (exW 8) [] [4] rfl (by decide)⟩⟩

/-- Claim C4 (confirmed): the bundle holds exactly seven weights, one per
projection role, all spanning the layer count of the one shared
configuration; the batched counterpart builds its seven views by projecting
the identical ordered tenant list, so all seven views have the same tenant
count, equal to the number of tenants. -/
theorem c4_seven_views_same_tenant_count :
    (∀ (cfg : LlamaConfig) (r : Nat) (dt : DType) (dev : Device),
      (LlamaLoraWeight.build cfg r dt dev).q.num_layers = cfg.num_hidden_layers ∧
      (LlamaLoraWeight.build cfg r dt dev).k.num_layers = cfg.num_hidden_layers ∧
      (LlamaLoraWeight.build cfg r dt dev).v.num_layers = cfg.num_hidden_layers ∧
      (LlamaLoraWeight.build cfg r dt dev).o.num_layers = cfg.num_hidden_layers ∧
      (LlamaLoraWeight.build cfg r dt dev).gate.num_layers = cfg.num_hidden_layers ∧
      (LlamaLoraWeight.build cfg r dt dev).up.num_layers = cfg.num_hidden_layers ∧
      (LlamaLoraWeight.build cfg r dt dev).down.num_layers = cfg.num_hidden_layers) ∧
    (∀ (weights : List LlamaLoraWeight) (lens : List Int)
        (b : BatchedLlamaLoraWeight),
      BatchedLlamaLoraWeight.build weights lens = .ok b →
        (b.q.weights = weights.map (fun w => w.q) ∧
         b.k.weights = weights.map (fun w => w.k) ∧
         b.v.weights = weights.map (fun w => w.v) ∧
         b.o.weights = weights.map (fun w => w.o) ∧
         b.gate.weights = weights.map (fun w => w.gate) ∧
         b.up.weights = weights.map (fun w => w.up) ∧
         b.down.weights = weights.map (fun w => w.down)) ∧
        (b.q.weights.length = weights.length ∧
         b.k.weights.length = weights.length ∧
         b.v.weights.length = weights.length ∧
         b.o.weights.length = weights.length ∧
         b.gate.weights.length = weights.length ∧
         b.up.weights.length = weights.length ∧
         b.down.weights.length = weights.length)) := by
  constructor
  · intro cfg r dt dev
    exact ⟨rfl, rfl, rfl, rfl, rfl, rfl, rfl⟩
  · intro weights lens b hb
    unfold BatchedLlamaLoraWeight.build at hb
    by_cases hlen : weights.length = lens.length
    · rw [if_pos hlen] at hb
      cases weights with
      | nil => exact absurd hb (by simp)
      | cons w0 rest =>
        cases hseg : segmentOf lens with
        | error e =>
          rw [hseg] at hb
          exact absurd hb (by simp)
        | ok seg =>
          rw [hseg] at hb
          injection hb with h
          subst h
          refine ⟨⟨rfl, rfl, rfl, rfl, rfl, rfl, rfl⟩, ?_⟩
          simp [List.length_map]
    · rw [if_neg hlen] at hb
      exact absurd hb (by simp)

/-- Claim C4 witness: the batched statement at one tenant of rank 8 with
row count 4. -/
theorem c4_seven_views_same_tenant_count_witness :
    BatchedLlamaLoraWeight.build [exW 8] [4] = .ok c4bEx ∧
    ((c4bEx.q.weights = [exW 8].map (fun w => w.q) ∧
      c4bEx.k.weights = [exW 8].map (fun w => w.k) ∧
      c4bEx.v.weights = [exW 8].map (fun w => w.v) ∧
      c4bEx.o.weights = [exW 8].map (fun w => w.o) ∧
      c4bEx.gate.weights = [exW 8].map (fun w => w.gate) ∧
      c4bEx.up.weights = [exW 8].map (fun w => w.up) ∧
      c4bEx.down.weights = [exW 8].map (fun w => w.down)) ∧
     (c4bEx.q.weights.length = [exW 8].length ∧
      c4bEx.k.weights.length = [exW 8].length ∧
      c4bEx.v.weights.length = [exW 8].length ∧
      c4bEx.o.weights.length = [exW 8].length ∧
      c4bEx.gate.weights.length = [exW 8].length ∧
      c4bEx.up.weights.length = [exW 8].length ∧
      c4bEx.down.weights.length = [exW 8].length)) :=
  ⟨rfl, c4_seven_views_same_tenant_count.2 [exW 8] [4] c4bEx rfl⟩

/-- Claim C5 counterexample: the spec-worded checked construction rejects a
concrete supplied bundle disagreeing with cfgEx, while the source
constructor accepts no supplied weights at all: it derives the seven
weights from the configuration, always succeeds, and its result always
agrees with the configuration, so no ConfigMismatch failure path exists in
the code. -/
theorem c5_config_validation_counterexample :
    llamaBundleFromSupplied cfgEx badBundleEx =
      .error .configMismatch ∧
    bundleMatchesConfig badBundleEx cfgEx = false ∧
    bundleMatchesConfig (LlamaLoraWeight.build cfgEx 8 .float16 devEx)
      cfgEx = true :=
  ⟨rfl, rfl, rfl⟩

/-- Claim C5 (amended): the bundle constructor receives only the shared
configuration (with rank, dtype, device); it derives all seven weights from
it, always succeeds, and every bundle it produces agrees with the
configuration dimensions — agreement holds by derivation, not by
validation, and no ConfigMismatch error exists. -/
theorem c5_amended_derived_config_agreement :
    ∀ (cfg : LlamaConfig) (r : Nat) (dt : DType) (dev : Device),
      bundleMatchesConfig (LlamaLoraWeight.build cfg r dt dev) cfg = true := by
  intro cfg r dt dev
  simp [bundleMatchesConfig, LlamaLoraWeight.build]

/-- Claim C10 (confirmed): within one bundle all seven weights share the
layer count, the rank, the dtype and the device, and the dimensions are
fixed by the configuration: q, k, v, o map hidden to hidden, gate and up
map hidden to intermediate, down maps intermediate to hidden. -/
theorem c10_bundle_field_shapes :
    ∀ (cfg : LlamaConfig) (r : Nat) (dt : DType) (dev : Device),
      let b := LlamaLoraWeight.build cfg r dt dev
      (b.q.num_layers = cfg.num_hidden_layers ∧ b.q.lora_rank = r ∧
       b.q.dtype = dt ∧ b.q.device = dev) ∧
      (b.k.num_layers = b.q.num_layers ∧ b.v.num_layers = b.q.num_layers ∧
       b.o.num_layers = b.q.num_layers ∧ b.gate.num_layers = b.q.num_layers ∧
       b.up.num_layers = b.q.num_layers ∧ b.down.num_layers = b.q.num_layers) ∧
      (b.k.lora_rank = b.q.lora_rank ∧ b.v.lora_rank = b.q.lora_rank ∧
       b.o.lora_rank = b.q.lora_rank ∧ b.gate.lora_rank = b.q.lora_rank ∧
       b.up.lora_rank = b.q.lora_rank ∧ b.down.lora_rank = b.q.lora_rank) ∧
      (b.k.dtype = b.q.dtype ∧ b.v.dtype = b.q.dtype ∧
       b.o.dtype = b.q.dtype ∧ b.gate.dtype = b.q.dtype ∧
       b.up.dtype = b.q.dtype ∧ b.down.dtype = b.q.dtype) ∧
      (b.k.device = b.q.device ∧ b.v.device = b.q.device ∧
       b.o.device = b.q.device ∧ b.gate.device = b.q.device ∧
       b.up.device = b.q.device ∧ b.down.device = b.q.device) ∧
      (b.q.in_features = cfg.hidden_size ∧ b.q.out_features = cfg.hidden_size) ∧
      (b.k.in_features = cfg.hidden_size ∧ b.k.out_features = cfg.hidden_size) ∧
      (b.v.in_features = cfg.hidden_size ∧ b.v.out_features = cfg.hidden_size) ∧
      (b.o.in_features = cfg.hidden_size ∧ b.o.out_features = cfg.hidden_size) ∧
      (b.gate.in_features = cfg.hidden_size ∧
       b.gate.out_features = cfg.intermediate_size) ∧
      (b.up.in_features = cfg.hidden_size ∧
       b.up.out_features = cfg.intermediate_size) ∧
      (b.down.in_features = cfg.intermediate_size ∧
       b.down.out_features = cfg.hidden_size) := by
  intro cfg r dt dev
  exact ⟨⟨rfl, rfl, rfl, rfl⟩,
         ⟨rfl, rfl, rfl, rfl, rfl, rfl⟩,
         ⟨rfl, rfl, rfl, rfl, rfl, rfl⟩,
         ⟨rfl, rfl, rfl, rfl, rfl, rfl⟩,
         ⟨rfl, rfl, rfl, rfl, rfl, rfl⟩,
         ⟨rfl, rfl⟩, ⟨rfl, rfl⟩, ⟨rfl, rfl⟩, ⟨rfl, rfl⟩,
         ⟨rfl, rfl⟩, ⟨rfl, rfl⟩, ⟨rfl, rfl⟩⟩

/-- Claim C6 (confirmed, over the spec-modelled pool): for every finite
sequence of allocate_page / free_page calls on a fresh pool of capacity P
with no double-free, after the whole sequence and after every prefix of it
the free-set size plus the leased-page count equals P, and every page index
below P sits in exactly one place: either the free set or the lease entry
of exactly one cache. -/
theorem c6_pool_conservation (P T : Nat) (ops : List PoolOp)
    (_hndf : noDoubleFree (KvPool.create P T) ops = true) :
    PoolInv (runPool (KvPool.create P T) ops) ∧
    ∀ pre suf : List PoolOp, ops = pre ++ suf →
      PoolInv (runPool (KvPool.create P T) pre) := by
  refine ⟨poolInv_run ops _ (poolInv_create P T), ?_⟩
  intro pre suf hps
  exact poolInv_run pre _ (poolInv_create P T)

/-- Claim C6 witness: a concrete double-free-free trace on a pool with two
pages. -/
theorem c6_pool_conservation_witness :
    noDoubleFree (KvPool.create 2 16)
      [.alloc 1, .free 0, .alloc 2, .alloc 3] = true ∧
    (PoolInv (runPool (KvPool.create 2 16)
        [.alloc 1, .free 0, .alloc 2, .alloc 3]) ∧
     ∀ pre suf : List PoolOp,
       [PoolOp.alloc 1, PoolOp.free 0, PoolOp.alloc 2, PoolOp.alloc 3] =
         pre ++ suf →
       PoolInv (runPool (KvPool.create 2 16) pre)) :=
  ⟨by decide,
   c6_pool_conservation 2 16 [.alloc 1, .free 0, .alloc 2, .alloc 3]
     (by decide)⟩

/-- Claim C7 (confirmed, over the spec-modelled cache): when an append
needs more pages than the pool holds free, the call fails with
PoolExhausted and the state step leaves the whole system — this cache's
page list and filled count, every other cache, and the pool — exactly as
it was. -/
theorem c7_append_exhausted_unchanged (s : KvSys) (id n : Nat) (c : KvCache)
    (hc : s.caches.lookup id = some c) (hr : c.released = false)
    (hx : s.pool.freePages.length < c.pagesNeeded s.pool.page_len n) :
    stepSysE s (.append id n) = .error .poolExhausted ∧
    stepSys s (.append id n) = s := by
  have happ : s.appendTokens id n = .error .poolExhausted := by
    simp only [KvSys.appendTokens, hc]
    rw [if_neg (by simp [hr])]
    rw [leaseMany_exhaust _ s.pool id hx]
  refine ⟨happ, ?_⟩
  unfold stepSys
  have hstep : stepSysE s (.append id n) = .error .poolExhausted := happ
  rw [hstep]

/-- Claim C7 witness: the end-to-end scenario of the spec: capacity 4,
page length 16, cache 1 holds 2 pages, and appending 50 tokens to the
empty cache 2 needs 4 pages while only 2 are free. -/
theorem c7_append_exhausted_unchanged_witness :
    sEx7.caches.lookup 2 = some ⟨[], 0, false⟩ ∧
    (⟨[], 0, false⟩ : KvCache).released = false ∧
    sEx7.pool.freePages.length <
      KvCache.pagesNeeded ⟨[], 0, false⟩ sEx7.pool.page_len 50 ∧
    (stepSysE sEx7 (.append 2 50) = .error .poolExhausted ∧
     stepSys sEx7 (.append 2 50) = sEx7) :=
  ⟨by decide, rfl, by decide,
   c7_append_exhausted_unchanged sEx7 2 50 ⟨[], 0, false⟩ (by decide) rfl
     (by decide)⟩

/-- Claim C8 (confirmed, over the spec-modelled cache): the first release
of a live cache succeeds and returns exactly the pages that cache held to
the pool free set, and a second release of the same cache fails with
AlreadyReleased. -/
theorem c8_release_once_then_fails (s : KvSys) (id : Nat) (c : KvCache)
    (hc : s.caches.lookup id = some c) (hr : c.released = false)
    (hnd : c.pages.Nodup)
    (hlt : ∀ p ∈ c.pages, p < s.pool.capacity)
    (hnf : ∀ p ∈ c.pages, p ∉ s.pool.freePages) :
    ∃ s' : KvSys, stepSysE s (.release id) = .ok s' ∧
      s'.pool.freePages = c.pages.reverse ++ s.pool.freePages ∧
      stepSysE s' (.release id) = .error .alreadyReleased := by
  obtain ⟨l', hfa⟩ := freeAll_spec c.pages s.pool hnd hlt hnf
  refine ⟨⟨⟨s.pool.capacity, s.pool.page_len,
            c.pages.reverse ++ s.pool.freePages, l'⟩,
           setCache s.caches id ⟨[], c.seqlen, true⟩⟩, ?_, rfl, ?_⟩
  · show s.release id = _
    simp only [KvSys.release, hc]
    rw [if_neg (by simp [hr])]
    rw [hfa]
  · show KvSys.release _ id = .error .alreadyReleased
    simp [KvSys.release, lookup_setCache s.caches id c ⟨[], c.seqlen, true⟩ hc]

/-- Claim C8 witness: releasing the cache with identity 7 that holds pages
0 and 1, then releasing it again. -/
theorem c8_release_once_then_fails_witness :
    sEx8.caches.lookup 7 = some ⟨[0, 1], 20, false⟩ ∧
    ([0, 1] : List Nat).Nodup ∧
    (∀ p ∈ ([0, 1] : List Nat), p < sEx8.pool.capacity) ∧
    (∀ p ∈ ([0, 1] : List Nat), p ∉ sEx8.pool.freePages) ∧
    (∃ s' : KvSys, stepSysE sEx8 (.release 7) = .ok s' ∧
      s'.pool.freePages =
        ([0, 1] : List Nat).reverse ++ sEx8.pool.freePages ∧
      stepSysE s' (.release 7) = .error .alreadyReleased) :=
  ⟨by decide, by decide, by decide, by decide,
   c8_release_once_then_fails sEx8 7 ⟨[0, 1], 20, false⟩ (by decide) rfl
     (by decide) (by decide) (by decide)⟩
